import Mathlib

/-!
Shallow embedding of the calendar core of danielbartsch/holiday-birthday-calendar
(src/App.tsx, src/people.ts).  Dates follow the JavaScript representation:
`getMonth()` is 0-based (January = 0), `getDate()` is 1-based, `getFullYear()`
is the signed year.  The modules `./date` (addDays) and `./config` are not in
the sources, so those primitives are modelled from the spec where marked.
-/

namespace HolidayCalendar

/-- A date-only value, as produced by `getDateWithoutTime` (App.tsx line 8):
year = getFullYear(), month = getMonth() (0-based), day = getDate() (1-based). -/
structure CalendarDate where
  year : Int
  month : Nat
  day : Nat
deriving DecidableEq, Repr

/-- Modelled from the spec: Gregorian leap-year rule, needed for `addDays` to
"correctly roll over month lengths (including leap years)". -/
def isLeapYear (y : Int) : Bool :=
  (y.emod 4 == 0 && y.emod 100 != 0) || y.emod 400 == 0

/-- Modelled from the spec: number of days in a (0-based) month of a year. -/
def daysInMonth (y : Int) (m : Nat) : Nat :=
  if m = 1 then (if isLeapYear y then 29 else 28)
  else if m = 3 ∨ m = 5 ∨ m = 8 ∨ m = 10 then 30
  else 31

/-- Modelled from the spec: successor day, rolling over month and year ends. -/
def nextDay (d : CalendarDate) : CalendarDate :=
  if d.day < daysInMonth d.year d.month then ⟨d.year, d.month, d.day + 1⟩
  else if d.month < 11 then ⟨d.year, d.month + 1, 1⟩
  else ⟨d.year + 1, 0, 1⟩

/-- Modelled from the spec: predecessor day, rolling under month and year starts. -/
def prevDay (d : CalendarDate) : CalendarDate :=
  if 1 < d.day then ⟨d.year, d.month, d.day - 1⟩
  else if 0 < d.month then ⟨d.year, d.month - 1, daysInMonth d.year (d.month - 1)⟩
  else ⟨d.year - 1, 11, 31⟩

/-- Modelled from the spec: `addDays(date, n)` from the repository module
`./date`, which is absent from the sources.  "Supports negative `n`; must
correctly roll over month lengths (including leap years) and year boundaries." -/
def addDays (d : CalendarDate) (n : Int) : CalendarDate :=
  if 0 ≤ n then Nat.iterate nextDay n.toNat d
  else Nat.iterate prevDay (-n).toNat d

/-- JavaScript `Date.prototype.getDay` (0 = Sunday … 6 = Saturday), computed
with Zeller's congruence on the Gregorian calendar. -/
def getDay (d : CalendarDate) : Nat :=
  let m1 : Int := Int.ofNat d.month + 1
  let zm : Int := if m1 ≤ 2 then m1 + 12 else m1
  let zy : Int := if m1 ≤ 2 then d.year - 1 else d.year
  let K : Int := zy.emod 100
  let J : Int := zy.ediv 100
  let h : Int :=
    (Int.ofNat d.day + (13 * (zm + 1)).ediv 5 + K + K.ediv 4 + J.ediv 4 + 5 * J).emod 7
  ((h + 6).emod 7).toNat

/-- The wheel-event reducer for the window length (App.tsx lines 245-255):
`setDays(prevDays => if prevDays + deltaX < 1 then 1 else if prevDays + deltaX > 100 then 100 else prevDays + deltaX)`.
`WheelEvent.deltaX` is a double and may be fractional (trackpads deliver
fractional deltas), so deltas and lengths are carried as exact rationals; the
handler adds the raw delta with no rounding. -/
def wheelSetDays (prevDays : ℚ) (deltaX : ℚ) : ℚ :=
  if prevDays + deltaX < 1 then 1
  else if prevDays + deltaX > 100 then 100
  else prevDays + deltaX

/-- JavaScript `Math.round`: the floor of the value plus one half. -/
def jsRound (q : ℚ) : Int :=
  ⌊q + 1/2⌋

/-- The floor of one half is zero. -/
theorem floor_half_eq_zero : ⌊(1/2 : ℚ)⌋ = 0 := by
  rw [Int.floor_eq_zero_iff]
  constructor <;> norm_num

/-- `jsRound` is the identity on integers. -/
theorem jsRound_intCast (n : Int) : jsRound (n : ℚ) = n := by
  rw [jsRound, Int.floor_int_add, floor_half_eq_zero, add_zero]

/-- C8 counterexample: at `windowLength = 30` the fractional wheel delta
`dx = 1/2` makes the reducer store the fractional length `61/2`, not
`clamp(30 + round(1/2), 1, 100) = 31` as the claim states — the handler adds
the raw delta without rounding. -/
theorem wheelSetDays_no_rounding :
    wheelSetDays 30 (1/2) = 61/2 ∧
    wheelSetDays 30 (1/2) ≠ ((max 1 (min (30 + jsRound (1/2)) 100) : Int) : ℚ) := by
  have hr : jsRound (1/2) = 1 := by
    have h1 : (1/2 : ℚ) + 1/2 = 1 := by norm_num
    rw [jsRound, h1, Int.floor_one]
  constructor
  · norm_num [wheelSetDays]
  · rw [hr]
    norm_num [wheelSetDays]

/-- C8 amended: for any nonzero wheel delta `dx`, the reducer sets the window
length to `clamp(windowLength + dx, 1, 100)` over the raw, possibly
fractional delta, with no rounding; the result always lies in `[1, 100]`;
when `dx` is an integer this coincides with the claimed
`clamp(windowLength + round(dx), 1, 100)`; from 30, `dx = -200` yields 1, and
from any starting length at least 1, `dx = +500` yields 100. -/
theorem wheelSetDays_clamps_raw (prev dx : ℚ) (hdx : dx ≠ 0) :
    wheelSetDays prev dx = max 1 (min (prev + dx) 100) ∧
    1 ≤ wheelSetDays prev dx ∧ wheelSetDays prev dx ≤ 100 ∧
    (∀ n : Int, dx = (n : ℚ) →
      wheelSetDays prev dx = max 1 (min (prev + ((jsRound dx : Int) : ℚ)) 100)) ∧
    wheelSetDays 30 (-200) = 1 ∧
    (1 ≤ prev → wheelSetDays prev 500 = 100) := by
  have hmain : wheelSetDays prev dx = max 1 (min (prev + dx) 100) := by
    unfold wheelSetDays
    split
    · next h => rw [min_eq_left (by linarith), max_eq_left (le_of_lt h)]
    · next h =>
      split
      · next h2 => rw [min_eq_right (by linarith), max_eq_right (by norm_num)]
      · next h2 => rw [min_eq_left (by linarith), max_eq_right (by linarith)]
  refine ⟨hmain, ?_, ?_, ?_, ?_, ?_⟩
  · rw [hmain]
    exact le_max_left _ _
  · rw [hmain]
    exact max_le (by norm_num) (min_le_right _ _)
  · intro n hn
    have hjr : ((jsRound dx : Int) : ℚ) = dx := by
      rw [hn, jsRound_intCast]
    rw [hjr, hmain]
  · norm_num [wheelSetDays]
  · intro h
    unfold wheelSetDays
    rw [if_neg (by linarith), if_pos (by linarith)]

/-- Witness for `wheelSetDays_clamps_raw` at `prev = 30`, `dx = -200`. -/
theorem wheelSetDays_clamps_raw_witness :
    wheelSetDays 30 (-200) = max 1 (min ((30 : ℚ) + -200) 100) ∧
    1 ≤ wheelSetDays 30 (-200) ∧ wheelSetDays 30 (-200) ≤ 100 ∧
    (∀ n : Int, (-200 : ℚ) = (n : ℚ) →
      wheelSetDays 30 (-200) =
        max 1 (min (30 + ((jsRound (-200) : Int) : ℚ)) 100)) ∧
    wheelSetDays 30 (-200) = 1 ∧
    (1 ≤ (30 : ℚ) → wheelSetDays 30 500 = 100) :=
  wheelSetDays_clamps_raw 30 (-200) (by norm_num)

/-- A tracked person (people.ts): `name`, `parents`, `birthday`, optional `deathDay`. -/
structure Person where
  name : String
  parents : String × String
  birthday : CalendarDate
  deathDay : Option CalendarDate
deriving DecidableEq, Repr

/-- Calendar order on date-only values: `calLtB a b` is the translation of
`a.getTime() < b.getTime()` for two midnight-normalized dates. -/
def calLtB (a b : CalendarDate) : Bool :=
  decide (a.year < b.year) ||
    (a.year == b.year &&
      (decide (a.month < b.month) || (a.month == b.month && decide (a.day < b.day))))

/-- The `todaysBirthdays` filter predicate (App.tsx lines 295-301): month and
day of `birthday` match `date`, birth year is at most the year of `date`, and
either there is no `deathDay` or `deathDay.getTime() > date.getTime()`. -/
def birthdayFires (date : CalendarDate) (p : Person) : Bool :=
  p.birthday.month == date.month &&
  p.birthday.day == date.day &&
  decide (p.birthday.year ≤ date.year) &&
  (match p.deathDay with
   | none => true
   | some deathDay => calLtB date deathDay)

/-- The `todaysDeaths` filter predicate (App.tsx lines 303-309): `deathDay`
exists, its month and day match `date`, and its year is at most the year of
`date`. -/
def deathFires (date : CalendarDate) (p : Person) : Bool :=
  match p.deathDay with
  | none => false
  | some deathDay =>
      deathDay.month == date.month &&
      deathDay.day == date.day &&
      decide (deathDay.year ≤ date.year)

/-- Years shown next to a fired birthday (App.tsx line 420):
`date.getFullYear() - birthday.getFullYear()`. -/
def birthdayYearsElapsed (date : CalendarDate) (p : Person) : Int :=
  date.year - p.birthday.year

/-- Years shown next to a fired death anniversary (App.tsx line 428):
`date.getFullYear() - (deathDay?.getFullYear() ?? 0)`. -/
def deathYearsAgo (date : CalendarDate) (p : Person) : Int :=
  date.year - (match p.deathDay with | some dd => dd.year | none => 0)

/-- `todaysBirthdays` for a day (App.tsx lines 295-301). -/
def todaysBirthdays (date : CalendarDate) (people : List Person) : List Person :=
  people.filter (birthdayFires date)

/-- `todaysDeaths` for a day (App.tsx lines 303-309). -/
def todaysDeaths (date : CalendarDate) (people : List Person) : List Person :=
  people.filter (deathFires date)

/-- `calLtB` decides the strict calendar order. -/
theorem calLtB_iff (a b : CalendarDate) :
    calLtB a b = true ↔
      (a.year < b.year ∨ (a.year = b.year ∧
        (a.month < b.month ∨ (a.month = b.month ∧ a.day < b.day)))) := by
  simp [calLtB]

/-- C2: a person fires a birthday on `date` iff the birth month and day match,
the birth year is at most the year of `date`, and the person either has no
death date or died strictly after `date` (in calendar order); the shown count
is `date.year - birthday.year`; in particular a person who died on their birth
month/day fires no birthday on that month/day in any later year. -/
theorem birthday_rule (p : Person) (d : CalendarDate) :
    (birthdayFires d p = true ↔
      (p.birthday.month = d.month ∧ p.birthday.day = d.day ∧
        p.birthday.year ≤ d.year ∧
        (p.deathDay = none ∨
          ∃ dd, p.deathDay = some dd ∧
            (d.year < dd.year ∨ (d.year = dd.year ∧
              (d.month < dd.month ∨ (d.month = dd.month ∧ d.day < dd.day))))))) ∧
    birthdayYearsElapsed d p = d.year - p.birthday.year ∧
    (∀ dd, p.deathDay = some dd → dd.month = p.birthday.month →
      dd.day = p.birthday.day → dd.year < d.year → d.month = dd.month →
      d.day = dd.day → birthdayFires d p = false) := by
  refine ⟨?_, rfl, ?_⟩
  · cases hd : p.deathDay with
    | none => simp [birthdayFires, hd, and_assoc]
    | some dd => simp [birthdayFires, hd, calLtB_iff, and_assoc]
  · intro dd hd hm hday hy hdm hdd
    cases hfire : birthdayFires d p with
    | false => rfl
    | true =>
      exfalso
      rw [birthdayFires, hd] at hfire
      simp only [Bool.and_eq_true, beq_iff_eq, decide_eq_true_eq, calLtB_iff] at hfire
      omega

/-- Witness for `birthday_rule`: a person born 1990-03-05 who died 2020-03-05
fires no birthday on 2021-03-05. -/
theorem birthday_rule_witness :
    birthdayFires ⟨2021, 2, 5⟩
      ⟨"P", ("a", "b"), ⟨1990, 2, 5⟩, some ⟨2020, 2, 5⟩⟩ = false :=
  (birthday_rule ⟨"P", ("a", "b"), ⟨1990, 2, 5⟩, some ⟨2020, 2, 5⟩⟩ ⟨2021, 2, 5⟩).2.2
    ⟨2020, 2, 5⟩ rfl rfl rfl (by norm_num) rfl rfl

/-- C3: a person fires a death anniversary on `date` iff they have a death
date whose month and day match `date` and whose year is at most the year of
`date`; the shown count is `date.year - deathDay.year`, which is 0 on the
exact date of death. -/
theorem death_rule (p : Person) (d : CalendarDate) :
    (deathFires d p = true ↔
      ∃ dd, p.deathDay = some dd ∧ dd.month = d.month ∧ dd.day = d.day ∧
        dd.year ≤ d.year) ∧
    (∀ dd, p.deathDay = some dd → deathYearsAgo d p = d.year - dd.year) ∧
    (∀ dd, p.deathDay = some dd → d = dd → deathYearsAgo d p = 0) := by
  refine ⟨?_, ?_, ?_⟩
  · cases hd : p.deathDay with
    | none => simp [deathFires, hd]
    | some dd => simp [deathFires, hd, and_assoc]
  · intro dd hd
    simp [deathYearsAgo, hd]
  · intro dd hd hde
    subst hde
    simp [deathYearsAgo, hd]

/-- Witness for `death_rule`: the 2020-03-05 death fires on 2021-03-05 with
count 1, and with count 0 on the death date itself. -/
theorem death_rule_witness :
    deathFires ⟨2021, 2, 5⟩
      ⟨"P", ("a", "b"), ⟨1990, 2, 5⟩, some ⟨2020, 2, 5⟩⟩ = true ∧
    deathYearsAgo ⟨2021, 2, 5⟩
      ⟨"P", ("a", "b"), ⟨1990, 2, 5⟩, some ⟨2020, 2, 5⟩⟩ = 2021 - 2020 ∧
    deathYearsAgo ⟨2020, 2, 5⟩
      ⟨"P", ("a", "b"), ⟨1990, 2, 5⟩, some ⟨2020, 2, 5⟩⟩ = 0 :=
  ⟨((death_rule ⟨"P", ("a", "b"), ⟨1990, 2, 5⟩, some ⟨2020, 2, 5⟩⟩ ⟨2021, 2, 5⟩).1).mpr
      ⟨⟨2020, 2, 5⟩, rfl, rfl, rfl, by norm_num⟩,
    (death_rule ⟨"P", ("a", "b"), ⟨1990, 2, 5⟩, some ⟨2020, 2, 5⟩⟩ ⟨2021, 2, 5⟩).2.1
      ⟨2020, 2, 5⟩ rfl,
    (death_rule ⟨"P", ("a", "b"), ⟨1990, 2, 5⟩, some ⟨2020, 2, 5⟩⟩ ⟨2020, 2, 5⟩).2.2
      ⟨2020, 2, 5⟩ rfl rfl⟩

/-- A user event (App.tsx lines 94-97). -/
structure Event where
  description : String
  color : String
deriving DecidableEq, Repr

/-- Read view of `LocalStorageEvents` (App.tsx lines 99-101): every day key
maps to its stored sequence, an absent key reading as the empty sequence,
matching the only read `eventMap[eventKey] ?? []` (App.tsx line 316). -/
abbrev EventMap := String → List Event

/-- The empty store. -/
def emptyMap : EventMap := fun _ => []

/-- `listEvents`: the read `eventMap[eventKey] ?? []` (App.tsx line 316). -/
def listEvents (m : EventMap) (k : String) : List Event :=
  m k

/-- The object-spread point update `(... eventMap, [eventKey]: v)` used by all
three mutations (App.tsx lines 331, 349, 363). -/
def setKey (m : EventMap) (k : String) (v : List Event) : EventMap :=
  fun k2 => if k2 = k then v else m k2

/-- `onDescriptionApply` (App.tsx lines 329-347): if the new description is
nonempty, replace the day's sequence by
`events.slice(0, eventIndex) ++ [newEvent] ++ events.slice(eventIndex + 1)`
where the new event keeps the prior event's color when one was passed and
otherwise takes the randomly drawn palette color; an empty description leaves
the store untouched. -/
def onDescriptionApply (m : EventMap) (k : String) (eventIndex : Nat)
    (priorEvent : Option Event) (newDescription : String)
    (randColor : String) : EventMap :=
  if newDescription ≠ "" then
    let events := m k
    setKey m k
      (events.take eventIndex ++
        [⟨newDescription, (priorEvent.map Event.color).getD randColor⟩] ++
        events.drop (eventIndex + 1))
  else m

/-- `onColorChange` (App.tsx lines 348-361): replace the day's sequence by
`events.slice(0, eventIndex) ++ [merged] ++ events.slice(eventIndex + 1)`
where the merged event keeps the prior event's description (empty when no
prior event was passed) and takes the new color. -/
def onColorChange (m : EventMap) (k : String) (eventIndex : Nat)
    (priorEvent : Option Event) (newColor : String) : EventMap :=
  let events := m k
  setKey m k
    (events.take eventIndex ++
      [⟨(priorEvent.map Event.description).getD "", newColor⟩] ++
      events.drop (eventIndex + 1))

/-- `onDelete` (App.tsx lines 362-371): replace the day's sequence by
`events.slice(0, eventIndex) ++ events.slice(eventIndex + 1)`. -/
def onDelete (m : EventMap) (k : String) (eventIndex : Nat) : EventMap :=
  let events := m k
  setKey m k (events.take eventIndex ++ events.drop (eventIndex + 1))

/-- Creation path: clicking the day cell calls
`handleEditEvent(null, events.length, ...)` (App.tsx line 390), so applying a
description runs `onDescriptionApply` at index `events.length` with no prior
event. -/
def createEvent (m : EventMap) (k : String) (description : String)
    (color : String) : EventMap :=
  onDescriptionApply m k (m k).length none description color

/-- Update path: clicking an existing event calls
`handleEditEvent(event, index, ...)` (App.tsx line 408) with
`event = events[index]`; applying a description runs `onDescriptionApply`
there.  For an out-of-range index the prior event is absent. -/
def updateDescription (m : EventMap) (k : String) (i : Nat)
    (newDescription : String) (randColor : String) : EventMap :=
  onDescriptionApply m k i ((m k).get? i) newDescription randColor

/-- C5: creating an event with a nonempty description appends exactly
`{description, color}` at the end of the day's sequence; with an empty
description creation is a no-op and the store is unchanged. -/
theorem createEvent_spec (m : EventMap) (k description color : String) :
    (description ≠ "" →
      listEvents (createEvent m k description color) k =
        listEvents m k ++ [⟨description, color⟩]) ∧
    (description = "" → createEvent m k description color = m) := by
  constructor
  · intro hne
    simp [createEvent, onDescriptionApply, hne, listEvents, setKey,
      List.take_length, List.drop_eq_nil_of_le]
  · intro he
    simp [createEvent, onDescriptionApply, he]

/-- Witness for `createEvent_spec` on the empty store. -/
theorem createEvent_spec_witness :
    (("Meeting" : String) ≠ "" →
      listEvents (createEvent emptyMap "day" "Meeting" "#553333") "day" =
        listEvents emptyMap "day" ++ [⟨"Meeting", "#553333"⟩]) ∧
    (("Meeting" : String) = "" →
      createEvent emptyMap "day" "Meeting" "#553333" = emptyMap) :=
  createEvent_spec emptyMap "day" "Meeting" "#553333"

/-- C6 counterexample: per the claim, updating at index 5 on a day holding one
event should fail with `NotFoundError` and leave the stored sequence
unchanged; the code instead appends the new event, so the sequence changes. -/
theorem update_out_of_bounds_changes :
    listEvents
      (updateDescription (setKey emptyMap "day" [⟨"A", "#553333"⟩]) "day" 5
        "X" "#594435") "day" ≠
      listEvents (setKey emptyMap "day" [⟨"A", "#553333"⟩]) "day" := by
  decide

/-- C6 amended: updating at an index at or past the day's current length does
not fail; with a nonempty description it appends `{newDescription, color}`
(the drawn color, there being no prior event) at the end of the day's
sequence, and with an empty description the store is unchanged. -/
theorem update_out_of_bounds_appends (m : EventMap) (k : String) (i : Nat)
    (newDescription randColor : String) (hi : (listEvents m k).length ≤ i) :
    (newDescription ≠ "" →
      listEvents (updateDescription m k i newDescription randColor) k =
        listEvents m k ++ [⟨newDescription, randColor⟩]) ∧
    (newDescription = "" →
      updateDescription m k i newDescription randColor = m) := by
  constructor
  · intro hne
    have hi2 : (m k).length ≤ i := hi
    have hnone : (m k).get? i = none := List.get?_eq_none.mpr hi2
    unfold updateDescription
    rw [hnone]
    simp [onDescriptionApply, hne, listEvents, setKey,
      List.take_of_length_le hi2,
      List.drop_eq_nil_of_le (le_trans hi2 (Nat.le_succ i))]
  · intro he
    simp [updateDescription, onDescriptionApply, he]

/-- Witness for `update_out_of_bounds_appends` at index 5 of a one-event day. -/
theorem update_out_of_bounds_appends_witness :
    (listEvents (setKey emptyMap "day" [⟨"A", "#553333"⟩]) "day").length ≤ 5 ∧
    (("X" : String) ≠ "" →
      listEvents
        (updateDescription (setKey emptyMap "day" [⟨"A", "#553333"⟩]) "day" 5
          "X" "#594435") "day" =
        listEvents (setKey emptyMap "day" [⟨"A", "#553333"⟩]) "day" ++
          [⟨"X", "#594435"⟩]) :=
  ⟨by decide,
    (update_out_of_bounds_appends (setKey emptyMap "day" [⟨"A", "#553333"⟩])
      "day" 5 "X" "#594435" (by decide)).1⟩

/-- C7 counterexample: per the claim, deleting index 5 from a day holding one
event should fail with `NotFoundError`; the code has no failure path at all
and leaves the whole store unchanged — the same no-op success the claim
reserves for empty or absent days. -/
theorem delete_out_of_bounds_noop :
    onDelete (setKey emptyMap "day" [⟨"A", "#553333"⟩]) "day" 5 =
      setKey emptyMap "day" [⟨"A", "#553333"⟩] := by
  funext k2
  by_cases h : k2 = "day" <;>
    simp [onDelete, setKey, emptyMap, h]

/-- C7 amended: deleting at index `i` replaces the day's sequence with
`take i ++ drop (i + 1)` — for `i < n` this removes exactly the element at
position `i`, shifting later elements down by one — and for every `i ≥ n`
(including empty or absent days) it is a no-op success, never an error. -/
theorem delete_spec (m : EventMap) (k : String) (i : Nat) :
    listEvents (onDelete m k i) k =
      (listEvents m k).take i ++ (listEvents m k).drop (i + 1) ∧
    ((listEvents m k).length ≤ i → onDelete m k i = m) := by
  constructor
  · simp [onDelete, listEvents, setKey]
  · intro hi
    have hi2 : (m k).length ≤ i := hi
    funext k2
    by_cases h : k2 = k
    · subst h
      simp [onDelete, setKey, List.take_of_length_le hi2,
        List.drop_eq_nil_of_le (le_trans hi2 (Nat.le_succ i))]
    · simp [onDelete, setKey, h]

/-- Witness for `delete_spec`: deleting index 0 of the two-event day
`[A, B]` leaves exactly `[B]`, and deleting index 5 of the absent day is a
no-op. -/
theorem delete_spec_witness :
    listEvents
      (onDelete (setKey emptyMap "day" [⟨"A", "#553333"⟩, ⟨"B", "#594435"⟩])
        "day" 0) "day" =
      (listEvents (setKey emptyMap "day" [⟨"A", "#553333"⟩, ⟨"B", "#594435"⟩])
          "day").take 0 ++
        (listEvents (setKey emptyMap "day" [⟨"A", "#553333"⟩, ⟨"B", "#594435"⟩])
          "day").drop 1 ∧
    ((listEvents emptyMap "day").length ≤ 5 → onDelete emptyMap "day" 5 = emptyMap) :=
  ⟨(delete_spec (setKey emptyMap "day" [⟨"A", "#553333"⟩, ⟨"B", "#594435"⟩])
      "day" 0).1,
    (delete_spec emptyMap "day" 5).2⟩

/-- C9: every mutation at a day key — description apply, color change,
delete — leaves the sequence stored under every other day key unchanged. -/
theorem mutations_frame (m : EventMap) (k k2 : String) (i : Nat)
    (priorEvent : Option Event) (description color : String) (hne : k2 ≠ k) :
    listEvents (onDescriptionApply m k i priorEvent description color) k2 =
      listEvents m k2 ∧
    listEvents (onColorChange m k i priorEvent color) k2 = listEvents m k2 ∧
    listEvents (onDelete m k i) k2 = listEvents m k2 := by
  refine ⟨?_, ?_, ?_⟩
  · unfold onDescriptionApply
    split
    · simp [listEvents, setKey, hne]
    · rfl
  · simp [onColorChange, listEvents, setKey, hne]
  · simp [onDelete, listEvents, setKey, hne]

/-- Witness for `mutations_frame`: mutations under key "a" do not touch the
sequence stored under key "b". -/
theorem mutations_frame_witness :
    listEvents
      (onDescriptionApply (setKey emptyMap "b" [⟨"B", "#594435"⟩]) "a" 0 none
        "X" "#553333") "b" =
      listEvents (setKey emptyMap "b" [⟨"B", "#594435"⟩]) "b" ∧
    listEvents
      (onColorChange (setKey emptyMap "b" [⟨"B", "#594435"⟩]) "a" 0 none
        "#553333") "b" =
      listEvents (setKey emptyMap "b" [⟨"B", "#594435"⟩]) "b" ∧
    listEvents (onDelete (setKey emptyMap "b" [⟨"B", "#594435"⟩]) "a" 0) "b" =
      listEvents (setKey emptyMap "b" [⟨"B", "#594435"⟩]) "b" :=
  mutations_frame (setKey emptyMap "b" [⟨"B", "#594435"⟩]) "a" "b" 0 none
    "X" "#553333" (by decide)

/-- C10: applying a color change at index `events.length` with no prior event
(the not-yet-created-event case reached from the day-cell click,
`handleEditEvent(null, events.length, ...)`) appends a stored event whose
description is the empty string and whose color is the chosen color. -/
theorem colorChange_appends_empty_description (m : EventMap)
    (k newColor : String) :
    listEvents (onColorChange m k (listEvents m k).length none newColor) k =
      listEvents m k ++ [⟨"", newColor⟩] := by
  simp [onColorChange, listEvents, setKey, List.take_of_length_le,
    List.drop_eq_nil_of_le (Nat.le_succ (m k).length)]

/-- Session rendering parameters of JavaScript `Date.prototype.toString`: the
UTC-offset part (such as "GMT+0100") and the timezone name (such as
"Central European Standard Time") of the environment the page runs in. -/
structure SessionTimeZone where
  offsetString : String
  tzName : String
deriving DecidableEq, Repr

/-- Abbreviated weekday names used by `Date.prototype.toString`. -/
def jsWeekDayNames : List String :=
  ["Sun", "Mon", "Tue", "Wed", "Thu", "Fri", "Sat"]

/-- Abbreviated month names used by `Date.prototype.toString`. -/
def jsMonthNames : List String :=
  ["Jan", "Feb", "Mar", "Apr", "May", "Jun",
   "Jul", "Aug", "Sep", "Oct", "Nov", "Dec"]

/-- Two-digit zero padding used by `Date.prototype.toString`. -/
def pad2 (n : Nat) : String :=
  if n < 10 then "0" ++ toString n else toString n

/-- `Date.prototype.toString` on a midnight-normalized date, per ECMA-262:
weekday, month, day, year, the midnight time, then the session's UTC offset
and timezone name. -/
def jsDateToString (tz : SessionTimeZone) (d : CalendarDate) : String :=
  jsWeekDayNames.getD (getDay d) "" ++ " " ++
  jsMonthNames.getD d.month "" ++ " " ++
  pad2 d.day ++ " " ++ toString d.year ++ " 00:00:00 " ++
  tz.offsetString ++ " (" ++ tz.tzName ++ ")"

/-- The storage key for a day, `const eventKey = date.toString()`
(App.tsx line 314). -/
def eventKey (tz : SessionTimeZone) (d : CalendarDate) : String :=
  jsDateToString tz d

/-- C4: the code derives the day key with `date.toString()`, which embeds the
session's timezone offset and name, so the same calendar date yields
different keys in different timezone settings — against the claim that the
key is a function of year, month and day alone. -/
theorem eventKey_depends_on_timezone :
    eventKey ⟨"GMT+0100", "Central European Standard Time"⟩ ⟨2021, 2, 5⟩ ≠
      eventKey ⟨"GMT+0000", "Greenwich Mean Time"⟩ ⟨2021, 2, 5⟩ := by
  decide

/-- The window state (App.tsx lines 223-224): `startDay` and `shownDays`. -/
structure WindowState where
  startDate : CalendarDate
  windowLength : Nat

/-- One rendered row of the calendar table (App.tsx lines 288-316): the day's
date, its fired holidays, birthdays and death anniversaries, the weekday
classification, and the events fetched from the store under the day's key. -/
structure DayDescriptor where
  date : CalendarDate
  holidaysToday : List String
  birthdaysToday : List Person
  deathsToday : List Person
  isWorkday : Bool
  isWeekend : Bool
  events : List Event

/-- The day-window generation (App.tsx lines 288-316):
`Array.from(\x7b length: shownDays \x7d).map((_, index) => ...)` with
`date = addDays(startDay, index)`, the three recurrence filters, the
weekday-membership tests and the event lookup by `date.toString()`. -/
def generateWindow (tz : SessionTimeZone) (state : WindowState)
    (holidays : List (String × (CalendarDate → Bool))) (people : List Person)
    (workDays weekendDays : List Nat) (eventMap : EventMap) :
    List DayDescriptor :=
  (List.range state.windowLength).map fun index =>
    let date := addDays state.startDate (Int.ofNat index)
    { date := date
      holidaysToday := (holidays.filter fun r => r.2 date).map Prod.fst
      birthdaysToday := todaysBirthdays date people
      deathsToday := todaysDeaths date people
      isWorkday := workDays.contains (getDay date)
      isWeekend := weekendDays.contains (getDay date)
      events := listEvents eventMap (eventKey tz date) }

/-- C1: for a window length in `[1, 100]`, the generated window has length
exactly `windowLength` and its i-th row's date is `addDays(startDate, i)`. -/
theorem generateWindow_dates (tz : SessionTimeZone) (state : WindowState)
    (holidays : List (String × (CalendarDate → Bool))) (people : List Person)
    (workDays weekendDays : List Nat) (eventMap : EventMap)
    (h1 : 1 ≤ state.windowLength) (h100 : state.windowLength ≤ 100) :
    (generateWindow tz state holidays people workDays weekendDays
        eventMap).length = state.windowLength ∧
    ∀ i, ∀ hi : i < (generateWindow tz state holidays people workDays
        weekendDays eventMap).length,
      ((generateWindow tz state holidays people workDays weekendDays
          eventMap).get ⟨i, hi⟩).date =
        addDays state.startDate (Int.ofNat i) := by
  constructor
  · simp [generateWindow]
  · intro i hi
    simp [generateWindow]

/-- Witness for `generateWindow_dates`: a two-day window starting 2021-03-05
has length 2 and row 1 carries 2021-03-06. -/
theorem generateWindow_dates_witness :
    (generateWindow ⟨"GMT+0000", "Greenwich Mean Time"⟩ ⟨⟨2021, 2, 5⟩, 2⟩
        [] [] [] [] emptyMap).length = 2 ∧
    ((generateWindow ⟨"GMT+0000", "Greenwich Mean Time"⟩ ⟨⟨2021, 2, 5⟩, 2⟩
        [] [] [] [] emptyMap).get
      ⟨1, by
        exact (generateWindow_dates ⟨"GMT+0000", "Greenwich Mean Time"⟩
          ⟨⟨2021, 2, 5⟩, 2⟩ [] [] [] [] emptyMap (by norm_num)
          (by norm_num)).1 ▸ one_lt_two⟩).date =
      addDays ⟨2021, 2, 5⟩ (Int.ofNat 1) :=
  ⟨(generateWindow_dates ⟨"GMT+0000", "Greenwich Mean Time"⟩
      ⟨⟨2021, 2, 5⟩, 2⟩ [] [] [] [] emptyMap (by norm_num) (by norm_num)).1,
    (generateWindow_dates ⟨"GMT+0000", "Greenwich Mean Time"⟩
      ⟨⟨2021, 2, 5⟩, 2⟩ [] [] [] [] emptyMap (by norm_num) (by norm_num)).2 1 _⟩

end HolidayCalendar
